import Mathlib

/-!
Verification of the OxidizeBot playback engine and queue store
(`src/bot/src/player.rs`) against its natural-language specification.

The Rust source is shallowly embedded:
* `Duration` and `Instant` values become `Nat` (milliseconds);
* `TrackId` (a Spotify base62 id) becomes `Nat` — only structural equality
  of ids is ever used;
* the `VecDeque` queues become `List`s with the front at the head;
* effects on the audio device, the event bus and the current-song file are
  recorded in explicit log fields of the engine state;
* fallible operations return `Except`; a `rand` panic is modelled as
  `Except.error ()`;
* the random draw of the fallback branch and the monotonic clock are passed
  in as explicit parameters (`draw`, `now`).
-/

/-- Track identifiers: structural equality only, modelled as `Nat`. -/
abbrev TrackId := Nat

/-- Mirrors `player::Item`: a playable track with metadata.  `duration` is in
milliseconds. -/
structure Item where
  track_id : TrackId
  artists : List String
  name : String
  user : Option String
  duration : Nat
deriving DecidableEq, Repr

/-- Mirrors `player::Origin`: provenance of the loaded track. -/
inductive Origin where
  | Injected
  | Fallback
  | Queue
deriving DecidableEq, Repr

/-- Mirrors `player::Event`, the bus payloads. -/
inductive Event where
  | Empty
  | Playing (echo : Bool) (origin : Origin) (item : Item)
  | Pausing
  | Modified
deriving DecidableEq, Repr

/-- Mirrors `player::Command`, the engine command channel payloads.
`Volume` carries a `u32`; `Inject` carries the theme item and its offset in
milliseconds. -/
inductive Command where
  | Skip
  | Toggle
  | Pause
  | Play
  | Modified
  | Volume (v : Nat)
  | Inject (item : Item) (offset : Nat)
deriving DecidableEq, Repr

/-- Mirrors `db::AddSong` / the persistent queue record. -/
structure DbRecord where
  track_id : TrackId
  added_at : Nat
  user : Option String
deriving DecidableEq, Repr

/-- Durable operations issued against the song database.  The database
implementation itself (`db::Database`) is not under `src/`; we record the
operations the queue store issues against it. -/
inductive DbOp where
  | addSong (r : DbRecord)
  | removeSong (t : TrackId)
  | purgeSongs
  | promoteSong (user : String) (t : TrackId)
deriving DecidableEq, Repr

/-- Operations issued against the audio device (`PlayerInterface`).  The
volume reaches the device as an `f32`; we model the exact rational value
`v / 100`. -/
inductive PlayerOp where
  | stop
  | play
  | pause
  | load (item : Item) (offset_ms : Nat)
  | setVolume (v : ℚ)
deriving DecidableEq, Repr

/-- Mirrors `player::AddTrackError` (the admission refusals; the generic
`Error` variant is for transport failures and is not part of the snapshot
check). -/
inductive AddTrackError where
  | QueueFull
  | QueueContainsTrack (idx : Nat)
  | TooManyUserTracks (max : Nat)
  | PlayerClosed (reason : Option String)
deriving DecidableEq, Repr

/-- Mirrors `player::Loaded`: the currently loaded slot.  `started_at` is the
`Instant` captured by `Loaded::new`; `offset` the offset the track was loaded
at, both in milliseconds. -/
structure Loaded where
  origin : Origin
  item : Item
  started_at : Nat
  offset : Nat
deriving DecidableEq, Repr

namespace Queue

/-- Mirrors `Queue::push_back`: persist the song (`db.push_back(&AddSong
{..})?`), and only then push the item onto the in-memory queue.  The durable
insert happens outside `src/`; its outcome is the parameter `dbOk`.  The
result carries the operation outcome, the emitted durable operations and the
resulting in-memory queue. -/
def push_back (dbOk : Bool) (q : List Item) (item : Item) (now : Nat) :
    Except Unit Unit × List DbOp × List Item :=
  if dbOk then
    (Except.ok (),
      [DbOp.addSong { track_id := item.track_id, added_at := now, user := item.user }],
      q ++ [item])
  else
    (Except.error (), [], q)

/-- Mirrors `Queue::remove_at`: empty queue gives `None`; otherwise
`VecDeque::remove(n)` removes and returns the item at `n` when in range
(issuing a best-effort durable remove), and gives `None` when out of range.
The source function always returns `Ok`. -/
def remove_at (q : List Item) (n : Nat) : Option Item × List DbOp × List Item :=
  if q.isEmpty then (none, [], q)
  else
    match q.get? n with
    | some item => (some item, [DbOp.removeSong item.track_id], q.eraseIdx n)
    | none => (none, [], q)

/-- Mirrors `Queue::remove_last`: pop the back of the queue, if any. -/
def remove_last (q : List Item) : Option Item × List DbOp × List Item :=
  if q.isEmpty then (none, [], q)
  else
    match q.getLast? with
    | some item => (some item, [DbOp.removeSong item.track_id], q.dropLast)
    | none => (none, [], q)

/-- Index of the last item of the queue requested by `user`, mirroring
`iter().rposition(|i| i.user == user)`. -/
def rpositionUser (user : String) : List Item → Option Nat
  | [] => none
  | i :: rest =>
    match rpositionUser user rest with
    | some j => some (j + 1)
    | none => if i.user = some user then some 0 else none

/-- Mirrors `Queue::remove_last_by_user`. -/
def remove_last_by_user (q : List Item) (user : String) :
    Option Item × List DbOp × List Item :=
  if q.isEmpty then (none, [], q)
  else
    match rpositionUser user q with
    | some pos =>
      match q.get? pos with
      | some item => (some item, [DbOp.removeSong item.track_id], q.eraseIdx pos)
      | none => (none, [], q)
    | none => (none, [], q)

/-- Mirrors `Queue::purge`: empty the queue, returning the purged items. -/
def purge (q : List Item) : List Item × List DbOp × List Item :=
  if q.isEmpty then ([], [], q)
  else (q, [DbOp.purgeSongs], [])

/-- Mirrors `VecDeque::swap(i, j)` on in-range indices (total via `get?`). -/
def vswap (q : List Item) (i j : Nat) : List Item :=
  match q.get? i, q.get? j with
  | some a, some b => (q.set i b).set j a
  | _, _ => q

/-- Mirrors `Queue::promote_song`: out-of-bound indices (or the empty queue)
give `None`; otherwise the items at positions `0` and `n` are swapped and the
new head returned. -/
def promote_song (user : String) (q : List Item) (n : Nat) :
    Option Item × List DbOp × List Item :=
  if q.isEmpty ∨ n ≥ q.length then (none, [], q)
  else
    let q2 := vswap q 0 n
    match q2.get? 0 with
    | some item => (some item, [DbOp.promoteSong user item.track_id], q2)
    | none => (none, [], q2)

end Queue

/-- Mirrors the scan loop of `PlayerClient::add_track`: walk the queue in
order; the first item with the requested track id aborts with its index,
otherwise the requester's items are counted. -/
def scanQueue (t : TrackId) (user : String) : List Item → Nat → Except Nat Nat
  | [], _ => Except.ok 0
  | i :: rest, idx =>
    if i.track_id = t then Except.error idx
    else
      match scanQueue t user rest (idx + 1) with
      | Except.error j => Except.error j
      | Except.ok c => Except.ok (c + (if i.user = some user then 1 else 0))

/-- Mirrors the snapshot-check closure of `PlayerClient::add_track` (the
`future::lazy` taken under the queue read lock).  Returns the queue length on
admission. -/
def add_track_check (closed : Option (Option String)) (max_queue_length max_songs_per_user : Nat)
    (q : List Item) (user : String) (track_id : TrackId) (is_moderator : Bool) :
    Except AddTrackError Nat :=
  let len := q.length
  let rest : Except AddTrackError Nat :=
    if is_moderator = false ∧ max_queue_length < len then Except.error AddTrackError.QueueFull
    else
      match scanQueue track_id user q 0 with
      | Except.error idx => Except.error (AddTrackError.QueueContainsTrack idx)
      | Except.ok user_count =>
        if is_moderator = false ∧ max_songs_per_user ≤ user_count then
          Except.error (AddTrackError.TooManyUserTracks max_songs_per_user)
        else Except.ok len
  if is_moderator = false then
    match closed with
    | some reason => Except.error (AddTrackError.PlayerClosed reason)
    | none => rest
  else rest

/-- Mirrors `PlayerClient::add_track` up to the queue append: a refusal from
the snapshot check leaves the queue untouched, admission appends the item
(metadata resolution is external and assumed successful). -/
def add_track (closed : Option (Option String)) (max_queue_length max_songs_per_user : Nat)
    (q : List Item) (user : String) (track_id : TrackId) (is_moderator : Bool) (item : Item) :
    Except AddTrackError Nat × List Item :=
  match add_track_check closed max_queue_length max_songs_per_user q user track_id is_moderator with
  | Except.error e => (Except.error e, q)
  | Except.ok len => (Except.ok len, q ++ [item])

/-- Index of the first queued item with the given track id, written from the
claim ("some queued item at that index has the same track_id"). -/
def firstDupIdx (t : TrackId) : List Item → Option Nat
  | [] => none
  | i :: rest => if i.track_id = t then some 0 else (firstDupIdx t rest).map (· + 1)

/-- Number of queued items requested by `user`, written from the claim. -/
def userCount (user : String) (q : List Item) : Nat :=
  q.countP (fun i => i.user = some user)

/-- Snapshot checks in the order the claim states them: closed (skipped for
moderators), full (skipped for moderators), duplicate (moderators too), user
quota (skipped for moderators). -/
def admissionOrderSpec (closed : Option (Option String))
    (max_queue_length max_songs_per_user : Nat) (q : List Item) (user : String)
    (track_id : TrackId) (is_moderator : Bool) : Except AddTrackError Nat :=
  if is_moderator = false ∧ closed.isSome then
    Except.error (AddTrackError.PlayerClosed (closed.getD none))
  else if is_moderator = false ∧ max_queue_length < q.length then
    Except.error AddTrackError.QueueFull
  else
    match firstDupIdx track_id q with
    | some idx => Except.error (AddTrackError.QueueContainsTrack idx)
    | none =>
      if is_moderator = false ∧ max_songs_per_user ≤ userCount user q then
        Except.error (AddTrackError.TooManyUserTracks max_songs_per_user)
      else Except.ok q.length

/-- Helper: the source scan loop computes the first duplicate index, or the
requester's item count when no duplicate exists. -/
theorem scanQueue_spec (t : TrackId) (user : String) :
    ∀ (q : List Item) (idx : Nat),
      scanQueue t user q idx =
        match firstDupIdx t q with
        | some j => Except.error (idx + j)
        | none => Except.ok (userCount user q)
  | [], idx => by simp [scanQueue, firstDupIdx, userCount]
  | i :: rest, idx => by
    unfold scanQueue firstDupIdx
    by_cases hd : i.track_id = t
    · simp [hd]
    · rw [if_neg hd, if_neg hd, scanQueue_spec t user rest (idx + 1)]
      cases hfd : firstDupIdx t rest with
      | some j =>
        simp only [hfd, Option.map]
        congr 1
        omega
      | none =>
        simp only [hfd, Option.map]
        unfold userCount
        rw [List.countP_cons]
        by_cases hu : i.user = some user
        · simp [hu]
        · simp [hu]

/-- Helper: the snapshot check of the source equals the claim-ordered first
refusal. -/
theorem add_track_check_eq_spec (closed : Option (Option String)) (mq ms : Nat)
    (q : List Item) (user : String) (t : TrackId) (m : Bool) :
    add_track_check closed mq ms q user t m = admissionOrderSpec closed mq ms q user t m := by
  unfold add_track_check admissionOrderSpec
  rw [scanQueue_spec]
  cases hfd : firstDupIdx t q with
  | some j => cases m <;> cases closed <;> simp [hfd]
  | none => cases m <;> cases closed <;> simp [hfd]

/-- Claim C4: add_track evaluates its snapshot checks in the claimed order
(closed, full, duplicate, user quota, with the moderator exemptions as
stated), returns the first applicable refusal, and a refusal leaves the
queue unchanged. -/
theorem add_track_first_refusal (closed : Option (Option String)) (mq ms : Nat)
    (q : List Item) (user : String) (t : TrackId) (m : Bool) (item : Item) :
    (add_track closed mq ms q user t m item).1 = admissionOrderSpec closed mq ms q user t m ∧
    (add_track closed mq ms q user t m item).2 =
      (if (admissionOrderSpec closed mq ms q user t m).isOk = true then q ++ [item] else q) := by
  unfold add_track
  rw [add_track_check_eq_spec]
  cases h : admissionOrderSpec closed mq ms q user t m with
  | error e => simp [Except.isOk, Except.toBool]
  | ok len => simp [Except.isOk, Except.toBool]

/-- Concrete items used by witnesses and counterexamples. -/
def itmA : Item :=
  { track_id := 1, artists := ["x"], name := "a", user := some "alice", duration := 1000 }

def itmB : Item :=
  { track_id := 2, artists := [], name := "b", user := some "bob", duration := 2000 }

def itmC : Item :=
  { track_id := 3, artists := [], name := "c", user := some "alice", duration := 3000 }

/-- Helper: replacing the element at `m` by the old head and promoting the
replaced element to the head is a permutation. -/
theorem perm_cons_set (x : Item) :
    ∀ (xs : List Item) (m : Nat) (b : Item), xs.get? m = some b →
      (x :: xs).Perm (b :: xs.set m x)
  | [], m, b, h => by simp at h
  | y :: t, 0, b, h => by
    have hyb : b = y := by simpa using h.symm
    subst hyb
    simpa using List.Perm.swap b x t
  | y :: t, m + 1, b, h => by
    have ht : t.get? m = some b := by simpa using h
    have hset : (y :: t).set (m + 1) x = y :: t.set m x := rfl
    rw [hset]
    refine List.Perm.trans (List.Perm.swap y x t) ?_
    refine List.Perm.trans ((perm_cons_set x t m b ht).cons y) ?_
    exact List.Perm.swap b y _

/-- Helper: the swap `vswap q 0 n` set-set normal form on in-range indices. -/
theorem vswap_eq (q : List Item) (n : Nat) (hn : n < q.length) :
    Queue.vswap q 0 n =
      (q.set 0 (q.get ⟨n, hn⟩)).set n
        (q.get ⟨0, Nat.lt_of_le_of_lt (Nat.zero_le n) hn⟩) := by
  have h0 : 0 < q.length := Nat.lt_of_le_of_lt (Nat.zero_le n) hn
  have ha : q.get? 0 = some (q.get ⟨0, h0⟩) := List.get?_eq_get h0
  have hb : q.get? n = some (q.get ⟨n, hn⟩) := List.get?_eq_get hn
  unfold Queue.vswap
  rw [ha, hb]

/-- Helper: the head of the swap `vswap q 0 n` is the old element at `n`. -/
theorem vswap_get?_zero (q : List Item) (n : Nat) (hn : n < q.length) :
    (Queue.vswap q 0 n).get? 0 = q.get? n := by
  have h0 : 0 < q.length := Nat.lt_of_le_of_lt (Nat.zero_le n) hn
  have ha : q.get? 0 = some (q.get ⟨0, h0⟩) := List.get?_eq_get h0
  have hb : q.get? n = some (q.get ⟨n, hn⟩) := List.get?_eq_get hn
  rw [vswap_eq q n hn]
  rcases Nat.eq_zero_or_pos n with h | h
  · subst h
    rw [List.set_set, List.get?_set_eq_of_lt _ h0, hb]
  · rw [List.get?_set_ne _ _ (Nat.ne_of_gt h), List.get?_set_eq_of_lt _ h0, hb]

/-- Helper: position `n` of the swap `vswap q 0 n` holds the old head. -/
theorem vswap_get?_at (q : List Item) (n : Nat) (hn : n < q.length) :
    (Queue.vswap q 0 n).get? n = q.get? 0 := by
  have h0 : 0 < q.length := Nat.lt_of_le_of_lt (Nat.zero_le n) hn
  have ha : q.get? 0 = some (q.get ⟨0, h0⟩) := List.get?_eq_get h0
  rw [vswap_eq q n hn, List.get?_set_eq_of_lt, ha]
  simpa using hn

/-- Helper: positions other than `0` and `n` are untouched by the swap. -/
theorem vswap_get?_other (q : List Item) (n i : Nat) (hi0 : i ≠ 0) (hin : i ≠ n) :
    (Queue.vswap q 0 n).get? i = q.get? i := by
  unfold Queue.vswap
  cases h0 : q.get? 0 with
  | none => rfl
  | some a =>
    cases hn : q.get? n with
    | none => rfl
    | some b =>
      rw [List.get?_set_ne _ _ (Ne.symm hin), List.get?_set_ne _ _ (Ne.symm hi0)]

/-- Helper: the swap `vswap q 0 n` is a permutation of `q`. -/
theorem vswap_perm (q : List Item) (n : Nat) (hn : n < q.length) :
    (Queue.vswap q 0 n).Perm q := by
  cases q with
  | nil => simp at hn
  | cons x xs =>
    cases n with
    | zero => exact List.Perm.refl _
    | succ m =>
      have hm : m < xs.length := by simpa using hn
      have hb : xs.get? m = some (xs.get ⟨m, hm⟩) := List.get?_eq_get hm
      rw [vswap_eq (x :: xs) (m + 1) hn]
      show (xs.get ⟨m, hm⟩ :: xs.set m x).Perm (x :: xs)
      exact (perm_cons_set x xs m (xs.get ⟨m, hm⟩) hb).symm

/-- Helper: the value of `Queue.promote_song` on an in-range index. -/
theorem promote_song_eq (user : String) (q : List Item) (n : Nat) (hn : n < q.length) :
    Queue.promote_song user q n =
      (some (q.get ⟨n, hn⟩),
        [DbOp.promoteSong user (q.get ⟨n, hn⟩).track_id], Queue.vswap q 0 n) := by
  have hne : ¬(q.isEmpty = true ∨ n ≥ q.length) := by
    push_neg
    refine ⟨fun h => ?_, hn⟩
    rw [List.isEmpty_iff] at h
    subst h
    simp at hn
  have hb : q.get? n = some (q.get ⟨n, hn⟩) := List.get?_eq_get hn
  have hz : (Queue.vswap q 0 n).get? 0 = some (q.get ⟨n, hn⟩) := by
    rw [vswap_get?_zero q n hn, hb]
  unfold Queue.promote_song
  rw [if_neg hne]
  simp only [hz]

/-- Helper: the value of `Queue.promote_song` on an out-of-range index. -/
theorem promote_song_none (user : String) (q : List Item) (n : Nat) (hn : q.length ≤ n) :
    Queue.promote_song user q n = (none, [], q) := by
  have he : q.isEmpty = true ∨ n ≥ q.length := Or.inr hn
  unfold Queue.promote_song
  rw [if_pos he]

/-- Claim C5: promote_song swaps positions 0 and n, leaves every other
position unchanged (hence preserves the multiset of items) and returns the
new head (the old element at n); for an empty queue or an out-of-range index
it returns none and leaves the queue unchanged. -/
theorem promote_song_swap (user : String) (q : List Item) (n : Nat) :
    (n < q.length →
      (Queue.promote_song user q n).1 = q.get? n ∧
      (Queue.promote_song user q n).2.2 = Queue.vswap q 0 n ∧
      (Queue.vswap q 0 n).get? 0 = q.get? n ∧
      (Queue.vswap q 0 n).get? n = q.get? 0 ∧
      (∀ i, i ≠ 0 → i ≠ n → (Queue.vswap q 0 n).get? i = q.get? i) ∧
      (Queue.vswap q 0 n).Perm q) ∧
    (q.length ≤ n → Queue.promote_song user q n = (none, [], q)) := by
  constructor
  · intro hn
    have hb : q.get? n = some (q.get ⟨n, hn⟩) := List.get?_eq_get hn
    have hp := promote_song_eq user q n hn
    refine ⟨by rw [hp, hb], by rw [hp], vswap_get?_zero q n hn, vswap_get?_at q n hn,
      fun i hi0 hin => vswap_get?_other q n i hi0 hin, vswap_perm q n hn⟩
  · exact promote_song_none user q n

/-- Witness for C5 at a concrete queue. -/
theorem promote_song_swap_witness :
    (Queue.promote_song "mod" [itmA, itmB, itmC] 2).1 = some itmC ∧
    (Queue.promote_song "mod" [itmA, itmB, itmC] 2).2.2 = [itmC, itmB, itmA] ∧
    Queue.promote_song "mod" [itmA, itmB, itmC] 5 = (none, [], [itmA, itmB, itmC]) := by
  have h1 := (promote_song_swap "mod" [itmA, itmB, itmC] 2).1 (by decide)
  have h2 := (promote_song_swap "mod" [itmA, itmB, itmC] 5).2 (by decide)
  refine ⟨?_, ?_, h2⟩
  · rw [h1.1]
    rfl
  · rw [h1.2.1]
    rfl


namespace PlayerClient

/-- Mirrors `PlayerClient::promote_song`: promote, then send `Modified` when
a song was promoted.  Returns the promoted item, the new in-memory queue and
whether `Command::Modified` was sent. -/
def promote_song (user : String) (q : List Item) (n : Nat) :
    Option Item × List Item × Bool :=
  let r := Queue.promote_song user q n
  (r.1, r.2.2, r.1.isSome)

/-- Mirrors `PlayerClient::remove_at`. -/
def remove_at (q : List Item) (n : Nat) : Option Item × List Item × Bool :=
  let r := Queue.remove_at q n
  (r.1, r.2.2, r.1.isSome)

/-- Mirrors `PlayerClient::remove_last`. -/
def remove_last (q : List Item) : Option Item × List Item × Bool :=
  let r := Queue.remove_last q
  (r.1, r.2.2, r.1.isSome)

/-- Mirrors `PlayerClient::remove_last_by_user`. -/
def remove_last_by_user (q : List Item) (user : String) :
    Option Item × List Item × Bool :=
  let r := Queue.remove_last_by_user q user
  (r.1, r.2.2, r.1.isSome)

/-- Mirrors `PlayerClient::purge`: `Modified` is sent when the purged list is
non-empty. -/
def purge (q : List Item) : List Item × List Item × Bool :=
  let r := Queue.purge q
  (r.1, r.2.2, !r.1.isEmpty)

end PlayerClient

/-- Helper: a last-position hit by `rposition` is in range. -/
theorem rpositionUser_lt (user : String) :
    ∀ (q : List Item) (pos : Nat), Queue.rpositionUser user q = some pos → pos < q.length
  | [], pos, h => by simp [Queue.rpositionUser] at h
  | i :: rest, pos, h => by
    unfold Queue.rpositionUser at h
    cases hr : Queue.rpositionUser user rest with
    | some j =>
      rw [hr] at h
      cases h
      have := rpositionUser_lt user rest j hr
      simpa using Nat.succ_lt_succ this
    | none =>
      rw [hr] at h
      by_cases hu : i.user = some user
      · rw [if_pos hu] at h
        cases h
        simp
      · rw [if_neg hu] at h
        cases h

/-- Claim C7: `Queue::push_back` only makes the item visible in the
in-memory queue together with the durable record, and a failed durable write
leaves the in-memory queue unchanged. -/
theorem push_back_durable (dbOk : Bool) (q : List Item) (item : Item) (now : Nat) :
    ((Queue.push_back dbOk q item now).2.2 ≠ q →
      (Queue.push_back dbOk q item now).2.1 =
        [DbOp.addSong { track_id := item.track_id, added_at := now, user := item.user }] ∧
      (Queue.push_back dbOk q item now).2.2 = q ++ [item] ∧
      (Queue.push_back dbOk q item now).1 = Except.ok ()) ∧
    ((Queue.push_back dbOk q item now).1 = Except.error () →
      (Queue.push_back dbOk q item now).2.2 = q ∧
      (Queue.push_back dbOk q item now).2.1 = []) := by
  cases dbOk with
  | false => simp [Queue.push_back]
  | true =>
    constructor
    · intro _
      refine ⟨rfl, rfl, rfl⟩
    · intro h
      simp [Queue.push_back] at h

/-- Witness for C7: a successful append and a failed append at a concrete
queue. -/
theorem push_back_durable_witness :
    (Queue.push_back true [itmA] itmB 5).2.1 =
      [DbOp.addSong { track_id := itmB.track_id, added_at := 5, user := itmB.user }] ∧
    (Queue.push_back false [itmA] itmB 5).2.2 = [itmA] := by
  constructor
  · exact ((push_back_durable true [itmA] itmB 5).1 (by decide)).1
  · exact ((push_back_durable false [itmA] itmB 5).2 rfl).1

/-- Helper: a strictly shorter list differs from the original. -/
theorem ne_of_length_lt {l q : List Item} (h : l.length < q.length) : l ≠ q := by
  intro hc
  subst hc
  exact Nat.lt_irrefl _ h

/-- Helper: `Queue.promote_song` succeeds exactly on in-range indices. -/
theorem promote_song_isSome (user : String) (q : List Item) (n : Nat) :
    (Queue.promote_song user q n).1.isSome = decide (n < q.length) := by
  by_cases hg : q.isEmpty = true ∨ n ≥ q.length
  · unfold Queue.promote_song
    rw [if_pos hg]
    have : ¬ n < q.length := by
      rcases hg with h | h
      · rw [List.isEmpty_iff] at h
        subst h
        simp
      · omega
    simp [this]
  · have hn : n < q.length := by
      push_neg at hg
      exact hg.2
    rw [promote_song_eq user q n hn]
    simp [hn]

/-- Helper: `Queue.remove_at` succeeds exactly on in-range indices. -/
theorem remove_at_isSome (q : List Item) (n : Nat) :
    (Queue.remove_at q n).1.isSome = decide (n < q.length) := by
  unfold Queue.remove_at
  by_cases he : q.isEmpty = true
  · rw [List.isEmpty_iff] at he
    subst he
    simp
  · rw [if_neg he]
    cases hg : q.get? n with
    | some a =>
      have := List.get?_eq_some.mp hg
      simp [this.1]
    | none =>
      have := List.get?_eq_none.mp hg
      simp
      omega

/-- Counterexample to C9 as stated: promoting index 0 of a non-empty queue
sends `Modified` even though the queue is unchanged. -/
theorem promote_modified_without_change :
    PlayerClient.promote_song "mod" [itmA, itmB] 0 = (some itmA, [itmA, itmB], true) := rfl

/-- Claim C9 (amended): each client operation sends `Modified` exactly when
it succeeds (returns an item, or purges a non-empty queue); for the remove
and purge operations success entails an actual change of the queue, and an
out-of-range `remove_at` returns `None`, leaves the queue unchanged and
sends no `Modified`.  `promote_song` with index 0 succeeds without changing
the queue (see the counterexample). -/
theorem client_modified_iff_success (q : List Item) (n : Nat) (user : String) :
    (PlayerClient.promote_song user q n).2.2 = decide (n < q.length) ∧
    (PlayerClient.remove_at q n).2.2 = decide (n < q.length) ∧
    (q.length ≤ n → PlayerClient.remove_at q n = (none, q, false)) ∧
    (n < q.length → (PlayerClient.remove_at q n).2.1 ≠ q) ∧
    ((PlayerClient.remove_last q).2.2 = !q.isEmpty) ∧
    (q ≠ [] → (PlayerClient.remove_last q).2.1 ≠ q) ∧
    ((PlayerClient.remove_last_by_user q user).2.2 =
      (Queue.rpositionUser user q).isSome) ∧
    ((Queue.rpositionUser user q).isSome = true →
      (PlayerClient.remove_last_by_user q user).2.1 ≠ q) ∧
    ((PlayerClient.purge q).2.2 = !q.isEmpty) ∧
    (q ≠ [] → (PlayerClient.purge q).2.1 = [] ∧ (PlayerClient.purge q).2.1 ≠ q) := by
  refine ⟨promote_song_isSome user q n, remove_at_isSome q n, ?_, ?_, ?_, ?_, ?_, ?_, ?_, ?_⟩
  · intro h
    unfold PlayerClient.remove_at Queue.remove_at
    by_cases he : q.isEmpty = true
    · simp [he]
    · have hg : q.get? n = none := List.get?_eq_none.mpr h
      rw [List.get?_eq_getElem?] at hg
      simp [he, hg]
  · intro hn
    unfold PlayerClient.remove_at Queue.remove_at
    have he : ¬ q.isEmpty = true := by
      rw [List.isEmpty_iff]
      intro hc
      subst hc
      simp at hn
    have hb : q.get? n = some (q.get ⟨n, hn⟩) := List.get?_eq_get hn
    simp only [he, hb, if_false, Bool.false_eq_true]
    apply ne_of_length_lt
    rw [List.length_eraseIdx_of_lt hn]
    omega
  · unfold PlayerClient.remove_last Queue.remove_last
    by_cases he : q.isEmpty = true
    · simp [he]
    · have hne : q ≠ [] := by
        rw [List.isEmpty_iff] at he
        exact he
      obtain ⟨a, ha⟩ := List.getLast?_isSome.mpr hne |> Option.isSome_iff_exists.mp
      simp [he, ha]
  · intro hne
    unfold PlayerClient.remove_last Queue.remove_last
    have he : ¬ q.isEmpty = true := by
      rw [List.isEmpty_iff]
      exact hne
    obtain ⟨a, ha⟩ := List.getLast?_isSome.mpr hne |> Option.isSome_iff_exists.mp
    simp only [he, ha, if_false, Bool.false_eq_true]
    apply ne_of_length_lt
    rw [List.length_dropLast]
    have : 0 < q.length := List.length_pos.mpr hne
    omega
  · unfold PlayerClient.remove_last_by_user Queue.remove_last_by_user
    by_cases he : q.isEmpty = true
    · have : q = [] := List.isEmpty_iff.mp he
      subst this
      simp [Queue.rpositionUser]
    · cases hr : Queue.rpositionUser user q with
      | some pos =>
        have hlt := rpositionUser_lt user q pos hr
        have hb : q.get? pos = some (q.get ⟨pos, hlt⟩) := List.get?_eq_get hlt
        rw [List.get?_eq_getElem?] at hb
        simp [he, hr, hb]
      | none => simp [he, hr]
  · intro hs
    obtain ⟨pos, hr⟩ := Option.isSome_iff_exists.mp hs
    have hlt := rpositionUser_lt user q pos hr
    have he : ¬ q.isEmpty = true := by
      rw [List.isEmpty_iff]
      intro hc
      subst hc
      simp [Queue.rpositionUser] at hr
    have hb : q.get? pos = some (q.get ⟨pos, hlt⟩) := List.get?_eq_get hlt
    unfold PlayerClient.remove_last_by_user Queue.remove_last_by_user
    simp only [he, hr, hb, if_false, Bool.false_eq_true]
    apply ne_of_length_lt
    rw [List.length_eraseIdx_of_lt hlt]
    omega
  · unfold PlayerClient.purge Queue.purge
    by_cases he : q.isEmpty = true
    · simp [he]
    · simp [he, List.isEmpty_iff.not.mp he]
  · intro hne
    have he : ¬ q.isEmpty = true := by
      rw [List.isEmpty_iff]
      exact hne
    unfold PlayerClient.purge Queue.purge
    simp only [he, if_false]
    exact ⟨rfl, fun hc => hne hc.symm⟩

/-- Witness for the amended C9 at concrete queues. -/
theorem client_modified_iff_success_witness :
    (PlayerClient.remove_at [itmA, itmB] 5 = (none, [itmA, itmB], false)) ∧
    (PlayerClient.remove_at [itmA, itmB] 1).2.1 ≠ [itmA, itmB] ∧
    (PlayerClient.purge [itmA, itmB]).2.1 = [] := by
  have h := client_modified_iff_success [itmA, itmB] 5 "u"
  have h1 := client_modified_iff_success [itmA, itmB] 1 "u"
  refine ⟨h.2.2.1 (by decide), h1.2.2.2.1 (by decide), (h.2.2.2.2.2.2.2.2.2 (by decide)).1⟩

/-- Mirrors the engine state of `PlaybackFuture` (`player.rs`), with the
external effects recorded in explicit log fields:
* `player_ops`: calls issued to the audio device (`PlayerInterface`);
* `bus`: events broadcast on the bus;
* `db_ops`: durable operations issued by the pop-front future;
* `file`: contents of the current-song file, `none` meaning blank, guarded
  by `has_current_song` (whether a file is configured);
`pop_front` records whether a durable front-pop future is pending. -/
structure PlaybackFuture where
  paused : Bool
  loaded : Option Loaded
  inject : Option (Item × Nat)
  sidelined : List (Loaded × Nat)
  fallback_items : List Item
  queue : List Item
  pop_front : Bool
  current : Option Item
  volume : Nat
  echo_current_song : Bool
  has_current_song : Bool
  file : Option (Item × Bool)
  player_ops : List PlayerOp
  bus : List Event
  db_ops : List DbOp
deriving DecidableEq, Repr

/-- Mirrors `PlaybackFuture::next_song`.  `now` is the value of
`Instant::now()` during this call and `draw` resolves the random choice of
the fallback branch (`rng.gen_range(0, len)` yields `draw % len`; on an
empty fallback list `gen_range(0, 0)` panics, modelled as
`Except.error ()`).  The offset passed to `player.load` is
`offset.as_millis() as u32`, hence the reduction modulo `2 ^ 32`. -/
def next_song (now draw : Nat) (st : PlaybackFuture) :
    Except Unit (Option Loaded × PlaybackFuture) :=
  match st.inject with
  | some (item, offset) =>
    let st1 :=
      match st.loaded with
      | some loaded =>
        { st with inject := none, loaded := none,
                  sidelined := st.sidelined ++ [(loaded, now)] }
      | none => { st with inject := none }
    let st2 :=
      { st1 with player_ops := st1.player_ops ++ [PlayerOp.load item (offset % 2 ^ 32)] }
    Except.ok (some { origin := Origin.Injected, item := item, started_at := now,
                      offset := offset }, st2)
  | none =>
    match st.sidelined with
    | (loaded, paused_at) :: rest =>
      let offset :=
        if loaded.started_at < paused_at then (paused_at - loaded.started_at) + loaded.offset
        else 0
      let st1 := { st with sidelined := rest,
                           player_ops :=
                             st.player_ops ++ [PlayerOp.load loaded.item (offset % 2 ^ 32)] }
      Except.ok (some { origin := loaded.origin, item := loaded.item, started_at := now,
                        offset := offset }, st1)
    | [] =>
      match st.queue with
      | item :: _ =>
        let st1 := { st with pop_front := true,
                             player_ops := st.player_ops ++ [PlayerOp.load item 0] }
        Except.ok (some { origin := Origin.Queue, item := item, started_at := now,
                          offset := 0 }, st1)
      | [] =>
        if st.paused = false ∨ st.loaded.isSome then
          if st.fallback_items.length = 0 then Except.error ()
          else
            match st.fallback_items.get? (draw % st.fallback_items.length) with
            | some item =>
              let st1 := { st with player_ops := st.player_ops ++ [PlayerOp.load item 0] }
              Except.ok (some { origin := Origin.Fallback, item := item, started_at := now,
                                offset := 0 }, st1)
            | none => Except.ok (none, { st with paused := true })
        else Except.ok (none, { st with paused := true })

/-- Mirrors `PlaybackFuture::current_song`, the current-song publisher.
`CurrentSong::write` and `CurrentSong::blank` live outside `src/`; modelled
from the spec: write renders the loaded item together with the paused flag,
blank truncates the file, write failures are logged and ignored. -/
def current_song (st : PlaybackFuture) : PlaybackFuture :=
  if st.has_current_song = false then st
  else
    match st.loaded with
    | some loaded => { st with file := some (loaded.item, st.paused) }
    | none => { st with file := none }

/-- Mirrors `PlaybackFuture::broadcast`. -/
def broadcast (st : PlaybackFuture) (e : Event) : PlaybackFuture :=
  { st with bus := st.bus ++ [e] }

/-- Mirrors `PlaybackFuture::load_front`. -/
def load_front (now draw : Nat) (st : PlaybackFuture) : Except Unit PlaybackFuture :=
  match next_song now draw st with
  | Except.error e => Except.error e
  | Except.ok (some loaded, st1) =>
    let st2 := { st1 with current := some loaded.item }
    let st3 :=
      if st2.paused = false then
        broadcast { st2 with player_ops := st2.player_ops ++ [PlayerOp.play] }
          (Event.Playing st2.echo_current_song loaded.origin loaded.item)
      else { st2 with player_ops := st2.player_ops ++ [PlayerOp.pause] }
    let st4 := { st3 with loaded := some loaded }
    Except.ok (current_song st4)
  | Except.ok (none, st1) =>
    let st2 := { st1 with loaded := none, current := none }
    let st3 := broadcast st2 Event.Empty
    let st4 := { st3 with player_ops := st3.player_ops ++ [PlayerOp.stop] }
    Except.ok (current_song st4)

/-- Mirrors `PlaybackFuture::command`.  The engine stores the received
volume unclamped and sends `volume / 100` to the device. -/
def command (now draw : Nat) (cmd : Command) (st : PlaybackFuture) :
    Except Unit PlaybackFuture :=
  let cmd :=
    match cmd with
    | Command.Toggle => if st.paused then Command.Play else Command.Pause
    | c => c
  match cmd with
  | Command.Skip => load_front now draw st
  | Command.Pause =>
    if st.paused = false then
      let st1 := { st with paused := true, player_ops := st.player_ops ++ [PlayerOp.pause] }
      Except.ok (current_song (broadcast st1 Event.Pausing))
    else Except.ok st
  | Command.Play =>
    if st.paused = true then
      let st1 := { st with paused := false }
      match st1.loaded with
      | some loaded =>
        let st2 := broadcast { st1 with player_ops := st1.player_ops ++ [PlayerOp.play] }
          (Event.Playing st1.echo_current_song loaded.origin loaded.item)
        Except.ok (current_song st2)
      | none => load_front now draw st1
    else Except.ok st
  | Command.Modified =>
    let r :=
      if st.paused = false ∧ st.loaded = none then load_front now draw st
      else Except.ok st
    match r with
    | Except.error e => Except.error e
    | Except.ok st1 => Except.ok (broadcast st1 Event.Modified)
  | Command.Volume v =>
    Except.ok { st with volume := v,
                        player_ops := st.player_ops ++ [PlayerOp.setVolume ((v : ℚ) / 100)] }
  | Command.Inject item offset =>
    load_front now draw { st with inject := some (item, offset) }
  | Command.Toggle => Except.ok st

/-- Mirrors `PlayerClient::volume` and `Player::volume`: the clamp
`u32::min(100, volume)` is applied before `Command::Volume` is sent to the
engine. -/
def client_volume (v : Nat) : Command := Command.Volume (min 100 v)

/-- Claim C6: a volume request through the Player or PlayerClient stores a
volume in [0, 100] and the device receives min(v, 100)/100, a value in
[0, 1]; the clamp is applied before the command reaches the engine. -/
theorem volume_clamped (now draw v : Nat) (st : PlaybackFuture) :
    command now draw (client_volume v) st =
      Except.ok { st with volume := min 100 v,
                          player_ops :=
                            st.player_ops ++
                              [PlayerOp.setVolume (((min 100 v : Nat) : ℚ) / 100)] } ∧
    min 100 v ≤ 100 ∧
    (0 : ℚ) ≤ ((min 100 v : Nat) : ℚ) / 100 ∧ ((min 100 v : Nat) : ℚ) / 100 ≤ 1 := by
  refine ⟨rfl, Nat.min_le_left _ _, by positivity, ?_⟩
  rw [div_le_one (by norm_num)]
  exact_mod_cast Nat.min_le_left 100 v

/-- A quiescent engine state used to build concrete examples. -/
def baseSt : PlaybackFuture :=
  { paused := false, loaded := none, inject := none, sidelined := [], fallback_items := [],
    queue := [], pop_front := false, current := none, volume := 100,
    echo_current_song := true, has_current_song := true, file := none,
    player_ops := [], bus := [], db_ops := [] }

/-- Claim C1 (amended): with no pending inject, an advance pops the front of
the sidelined deque and loads its item with the origin preserved; the
resumed offset is `entry.offset + (paused_at − started_at)` when
`paused_at > started_at`, and otherwise resets to 0 (not `entry.offset`);
monotonicity of the resumed offset therefore holds whenever
`paused_at > started_at`. -/
theorem sidelined_resume (now draw : Nat) (st : PlaybackFuture) (entry : Loaded)
    (paused_at : Nat) (rest : List (Loaded × Nat))
    (hinj : st.inject = none) (hsl : st.sidelined = (entry, paused_at) :: rest) :
    next_song now draw st =
      Except.ok (some { origin := entry.origin, item := entry.item, started_at := now,
                        offset := if entry.started_at < paused_at
                          then (paused_at - entry.started_at) + entry.offset else 0 },
        { st with sidelined := rest,
                  player_ops := st.player_ops ++ [PlayerOp.load entry.item
                    ((if entry.started_at < paused_at
                      then (paused_at - entry.started_at) + entry.offset else 0) % 2 ^ 32)] }) ∧
    (entry.started_at < paused_at →
      entry.offset ≤ if entry.started_at < paused_at
        then (paused_at - entry.started_at) + entry.offset else 0) := by
  constructor
  · unfold next_song
    rw [hinj, hsl]
  · intro h
    rw [if_pos h]
    omega

/-- A sidelined entry whose item had been resumed 5 seconds in, pre-empted
20 ms after it started. -/
def resumeEntry : Loaded :=
  { origin := Origin.Queue, item := itmA, started_at := 10, offset := 5000 }

/-- Engine state holding one sidelined entry pre-empted at instant 30. -/
def resumeSt : PlaybackFuture := { baseSt with sidelined := [(resumeEntry, 30)] }

/-- Witness for the amended C1: the entry is resumed at
`5000 + (30 − 10) = 5020 ≥ 5000` with its origin preserved. -/
theorem sidelined_resume_witness :
    next_song 40 0 resumeSt =
      Except.ok (some { origin := Origin.Queue, item := itmA, started_at := 40,
                        offset := 5020 },
        { resumeSt with sidelined := [], player_ops := [PlayerOp.load itmA 5020] }) ∧
    (5000 : Nat) ≤ 5020 := by
  have h := sidelined_resume 40 0 resumeSt resumeEntry 30 [] rfl rfl
  exact ⟨h.1, h.2 (by decide)⟩

/-- Engine state holding one sidelined entry whose `paused_at` equals its
`started_at` (possible: `Instant::now` is monotone, not strictly so). -/
def resumeTieSt : PlaybackFuture := { baseSt with sidelined := [(resumeEntry, 10)] }

/-- Counterexample to C1 as stated: with `paused_at = started_at = 10` and a
sidelined offset of 5000, the code resumes at offset 0, not
`5000 + max(0, 10 − 10) = 5000`, and the resumed offset drops below the
offset at which the item was sidelined. -/
theorem sidelined_resume_counterexample :
    ((next_song 40 0 resumeTieSt).toOption.bind Prod.fst).map Loaded.offset = some 0 ∧
    resumeEntry.offset + max 0 (10 - 10) = 5000 ∧ ¬ (5000 : Nat) ≤ 0 := by
  exact ⟨rfl, rfl, by decide⟩

/-- Claim C3: at the state with no inject, no sidelined entry, empty queue,
empty fallback pool and the fallback guard holding (`paused = false`), the
source reaches `rng.gen_range(0, 0)` which panics on the empty range
(modelled `Except.error ()`): the engine aborts instead of entering the
empty state. -/
theorem next_song_empty_fallback_panics :
    next_song 0 0 baseSt = Except.error () := rfl

/-- Claim C10: when `next_song` yields no song it sets `paused := true`, and
a `Modified` command on a paused engine only broadcasts `Modified` without
loading anything (the state is otherwise untouched). -/
theorem empty_advance_pauses_and_modified_inert (now draw : Nat) (st st2 : PlaybackFuture) :
    (next_song now draw st = Except.ok (none, st2) → st2.paused = true) ∧
    (st.paused = true →
      command now draw Command.Modified st = Except.ok (broadcast st Event.Modified)) := by
  constructor
  · intro h
    unfold next_song at h
    split at h
    · simp at h
    · split at h
      · simp at h
      · split at h
        · simp at h
        · split at h
          · split at h
            · simp at h
            · split at h
              · simp at h
              · simp at h
                rw [← h]
          · simp at h
            rw [← h]
  · intro hp
    have hc : ¬ (st.paused = false ∧ st.loaded = none) := by
      intro hc
      rw [hp] at hc
      exact absurd hc.1 (by simp)
    unfold command
    rw [if_neg hc]

/-- Witness for C10: the empty advance from a paused state keeps the engine
paused, and `Modified` on the paused engine only broadcasts. -/
theorem empty_advance_pauses_witness :
    ({ baseSt with paused := true } : PlaybackFuture).paused = true ∧
    command 0 0 Command.Modified { baseSt with paused := true } =
      Except.ok (broadcast { baseSt with paused := true } Event.Modified) := by
  have h := empty_advance_pauses_and_modified_inert 0 0 { baseSt with paused := true }
      { baseSt with paused := true }
  exact ⟨h.1 rfl, h.2 rfl⟩

/-- Completion status of the one-shot bound to the loaded track, as observed
by one `poll` of `loaded.future`. -/
inductive LoadSignal where
  | finished
  | canceled
  | pending
deriving DecidableEq, Repr

/-- Readiness of the engine inputs during one iteration of
`PlaybackFuture::poll`: whether a pending pop-front completes, the loaded
one-shot status, whether a device event is ready, and an available command. -/
structure PollInput where
  pop_ready : Bool
  loaded_signal : LoadSignal
  event_ready : Bool
  command_ready : Option Command
deriving DecidableEq, Repr

/-- Outcome of one iteration of the poll loop: suspend (`Async::NotReady`)
or run another iteration (`not_ready` was cleared). -/
inductive PollOutcome where
  | suspend
  | loopAgain
deriving DecidableEq, Repr

/-- Mirrors the body of the pop-front future (`Queue::pop_front`): pop the
in-memory front, issue the best-effort durable removal, and clear the
pending pop. -/
def complete_pop (st : PlaybackFuture) : PlaybackFuture :=
  match st.queue with
  | item :: rest =>
    { st with queue := rest, db_ops := st.db_ops ++ [DbOp.removeSong item.track_id],
              pop_front := false }
  | [] => { st with pop_front := false }

/-- Mirrors one iteration of `PlaybackFuture::poll` after the pop-front
block: poll the loaded completion (advance on finished; clear `loaded` and
`current` on canceled, without touching the current-song file), drain a
device event (logged only), then handle one command.  `not_ready` is the
running flag of the source loop. -/
def poll_rest (now draw : Nat) (inp : PollInput) (st : PlaybackFuture) (not_ready : Bool) :
    Except Unit (PollOutcome × PlaybackFuture) :=
  let step1 : Except Unit (PlaybackFuture × Bool) :=
    match st.loaded with
    | some _ =>
      match inp.loaded_signal with
      | LoadSignal.finished =>
        match load_front now draw st with
        | Except.error e => Except.error e
        | Except.ok st1 => Except.ok (st1, false)
      | LoadSignal.canceled =>
        Except.ok ({ st with loaded := none, current := none }, not_ready)
      | LoadSignal.pending => Except.ok (st, not_ready)
    | none => Except.ok (st, not_ready)
  match step1 with
  | Except.error e => Except.error e
  | Except.ok (st1, nr1) =>
    let nr2 := if inp.event_ready then false else nr1
    match inp.command_ready with
    | some cmd =>
      match command now draw cmd st1 with
      | Except.error e => Except.error e
      | Except.ok st2 => Except.ok (PollOutcome.loopAgain, st2)
    | none =>
      if nr2 then Except.ok (PollOutcome.suspend, st1)
      else Except.ok (PollOutcome.loopAgain, st1)

/-- Mirrors one iteration of `PlaybackFuture::poll`: a pending pop-front is
completed before anything else is polled; while it is not ready the whole
future returns `NotReady` without touching any other input. -/
def poll_iter (now draw : Nat) (inp : PollInput) (st : PlaybackFuture) :
    Except Unit (PollOutcome × PlaybackFuture) :=
  if st.pop_front then
    if inp.pop_ready = false then Except.ok (PollOutcome.suspend, st)
    else poll_rest now draw inp (complete_pop st) false
  else poll_rest now draw inp st true

/-- Helper: the publisher never changes the loaded slot. -/
theorem current_song_loaded (st : PlaybackFuture) : (current_song st).loaded = st.loaded := by
  unfold current_song
  split
  · rfl
  · split <;> rfl

/-- Helper: with a file configured and nothing loaded, the publisher blanks
the file. -/
theorem current_song_blank (st : PlaybackFuture) (hl : st.loaded = none)
    (hh : st.has_current_song = true) : (current_song st).file = none := by
  unfold current_song
  rw [hl]
  have : ¬ st.has_current_song = false := by rw [hh]; simp
  rw [if_neg this]

/-- Helper: the publisher never changes the configuration flag. -/
theorem current_song_has (st : PlaybackFuture) :
    (current_song st).has_current_song = st.has_current_song := by
  unfold current_song
  split
  · rfl
  · split <;> rfl

/-- Engine state with a loaded track whose data is in the current-song
file. -/
def canceledSt : PlaybackFuture :=
  { baseSt with loaded := some resumeEntry, current := some itmA, file := some (itmA, false) }

/-- Counterexample to C2 as stated: when the load-completion signal reports
canceled, the loaded slot becomes `None` but the current-song file keeps its
previous contents (the canceled arm of `poll` never calls
`current_song`). -/
theorem canceled_does_not_blank :
    poll_iter 0 0 { pop_ready := false, loaded_signal := LoadSignal.canceled,
                    event_ready := false, command_ready := none } canceledSt =
      Except.ok (PollOutcome.suspend, { canceledSt with loaded := none, current := none }) ∧
    ({ canceledSt with loaded := none, current := none } : PlaybackFuture).loaded = none ∧
    ({ canceledSt with loaded := none, current := none } : PlaybackFuture).file =
      some (itmA, false) := by
  exact ⟨rfl, rfl, rfl⟩

/-- Claim C2 (amended): when `Loaded` becomes `None` through the advance
path (`load_front` entering the empty state) the current-song file is
blanked; but when the load-completion signal reports canceled, `Loaded` and
`current` are cleared while the current-song file is left untouched. -/
theorem blank_current_song (now draw : Nat) (st st1 : PlaybackFuture) :
    (load_front now draw st = Except.ok st1 → st1.loaded = none →
      st1.has_current_song = true → st1.file = none) ∧
    (∀ (inp : PollInput) (l : Loaded), st.pop_front = false → st.loaded = some l →
      inp.loaded_signal = LoadSignal.canceled → inp.event_ready = false →
      inp.command_ready = none →
      poll_iter now draw inp st =
        Except.ok (PollOutcome.suspend, { st with loaded := none, current := none })) := by
  constructor
  · intro h hl hh
    unfold load_front at h
    split at h
    · simp at h
    · simp only [Except.ok.injEq] at h
      rw [← h] at hl
      rw [current_song_loaded] at hl
      simp at hl
    · simp only [Except.ok.injEq] at h
      rw [← h] at hl hh ⊢
      rw [current_song_has] at hh
      exact current_song_blank _ rfl hh
  · intro inp l hpf hld hsig hev hcmd
    unfold poll_iter
    rw [hpf]
    simp only [Bool.false_eq_true, if_false]
    unfold poll_rest
    rw [hld, hsig, hev, hcmd]
    simp only [hpf]
    rfl

/-- Witness start state for the amended C2: paused engine, nothing to play,
stale file contents. -/
def c2Start : PlaybackFuture := { baseSt with paused := true, file := some (itmA, false) }

/-- Witness end state for the amended C2. -/
def c2End : PlaybackFuture :=
  { baseSt with paused := true, file := none, bus := [Event.Empty],
                player_ops := [PlayerOp.stop] }

/-- Witness for the amended C2: an empty advance blanks the stale file, and
a canceled signal clears the loaded slot while keeping the file. -/
theorem blank_current_song_witness :
    (load_front 0 0 c2Start = Except.ok c2End ∧ c2End.file = none) ∧
    poll_iter 0 0 { pop_ready := false, loaded_signal := LoadSignal.canceled,
                    event_ready := false, command_ready := none } canceledSt =
      Except.ok (PollOutcome.suspend, { canceledSt with loaded := none, current := none }) := by
  have he : load_front 0 0 c2Start = Except.ok c2End := rfl
  refine ⟨⟨he, (blank_current_song 0 0 c2Start c2End).1 he rfl rfl⟩, ?_⟩
  exact (blank_current_song 0 0 canceledSt canceledSt).2
    { pop_ready := false, loaded_signal := LoadSignal.canceled,
      event_ready := false, command_ready := none } resumeEntry rfl rfl rfl rfl rfl

/-- Claim C8: while a durable front-pop is pending and not yet complete, one
iteration of the engine loop suspends with the state untouched (no load
completion, device event or command is processed, even if one is ready);
when the pop completes, the iteration applies the pop before processing the
rest. -/
theorem poll_pop_first (now draw : Nat) (inp : PollInput) (st : PlaybackFuture) :
    (st.pop_front = true → inp.pop_ready = false →
      poll_iter now draw inp st = Except.ok (PollOutcome.suspend, st)) ∧
    (st.pop_front = true → inp.pop_ready = true →
      poll_iter now draw inp st = poll_rest now draw inp (complete_pop st) false ∧
      (complete_pop st).pop_front = false) := by
  constructor
  · intro h1 h2
    unfold poll_iter
    rw [h1, h2]
    simp
  · intro h1 h2
    refine ⟨?_, ?_⟩
    · unfold poll_iter
      rw [h1, h2]
      simp
    · unfold complete_pop
      cases hq : st.queue <;> rfl

/-- Engine state with a pending durable front-pop. -/
def popPendingSt : PlaybackFuture :=
  { baseSt with pop_front := true, queue := [itmA], paused := true }

/-- Witness for C8: with the pop not ready the iteration suspends unchanged
even though a command is ready; with the pop ready the iteration runs the
rest on the popped state. -/
theorem poll_pop_first_witness :
    poll_iter 0 0 { pop_ready := false, loaded_signal := LoadSignal.pending,
                    event_ready := false, command_ready := some Command.Skip } popPendingSt =
      Except.ok (PollOutcome.suspend, popPendingSt) ∧
    poll_iter 0 0 { pop_ready := true, loaded_signal := LoadSignal.pending,
                    event_ready := false, command_ready := none } popPendingSt =
      poll_rest 0 0 { pop_ready := true, loaded_signal := LoadSignal.pending,
                      event_ready := false, command_ready := none }
        (complete_pop popPendingSt) false := by
  have h1 := poll_pop_first 0 0 { pop_ready := false, loaded_signal := LoadSignal.pending,
                                  event_ready := false,
                                  command_ready := some Command.Skip } popPendingSt
  have h2 := poll_pop_first 0 0 { pop_ready := true, loaded_signal := LoadSignal.pending,
                                  event_ready := false,
                                  command_ready := none } popPendingSt
  exact ⟨h1.1 rfl rfl, (h2.2 rfl rfl).1⟩
